import Mathlib

/-!
Verification of the scan/stream/delete engine of `src/src-tauri/src/main.rs`.

The Rust program walks a directory tree, streams partial results over a
channel, post-processes the final tree into a depth-limited snapshot, resolves
disk capacity for root scans, and batch-deletes paths with progress events.

Shallow embedding conventions:
* Filesystem paths are modelled as lists of components (`List String`);
  the Rust code renders them as strings, but only component structure is
  observable in the verified properties (`Path::starts_with`, `parent`,
  `file_name` are all component-wise).
* `u64`/`usize` are modelled as `Nat`; the only subtraction in scope is
  `total_space - available_space` where the platform guarantees
  `available ≤ total`, so truncated `Nat` subtraction agrees with Rust.
* The filesystem itself is a finite inductive tree `FSNode`.  `fs::metadata`
  follows symbolic links, so a broken symlink makes `fs::metadata` fail; this
  is mirrored by `fs_metadata` returning `none` for `FSNode.brokenLink`.
* The channel is modelled by returning the list of messages sent, in order.
  Rayon's per-directory fan-out is sequentialised in directory-entry order
  (counters and tree construction are order-independent in the source).
* Cooperative cancellation is modelled by a schedule `cancelAt : Option Nat`:
  the shared `AtomicBool` reads `true` from the `cancelAt`-th cancellation
  check on (the check counter `checks` is the logical clock of the run).
* Recursion in the walker is made total with a `fuel` parameter that bounds
  the recursion depth; any fuel larger than the tree's depth gives exactly
  the Rust behaviour, and all universally quantified theorems hold for every
  fuel.
-/

/-- `FileNode` of main.rs: name, size in bytes, absolute path, optional
children (present for directories, absent for files), directory flag. -/
structure FileNode where
  name : String
  size : Nat
  path : List String
  children : Option (List FileNode)
  is_directory : Bool

/-- `CompactFileNode` of main.rs: the wire projection of `FileNode` that
omits the path. -/
structure CompactFileNode where
  name : String
  size : Nat
  children : Option (List CompactFileNode)
  is_directory : Bool

/-- `DiskInfo` of main.rs. -/
structure DiskInfo where
  total_space : Nat
  available_space : Nat
  used_space : Nat
deriving DecidableEq

/-- `PartialScanResult` of main.rs: the envelope streamed over the channel. -/
structure PartialScanResult where
  nodes : List FileNode
  compact_nodes : List CompactFileNode
  total_scanned : Nat
  total_size : Nat
  is_complete : Bool
  root_node : Option FileNode
  compact_root : Option CompactFileNode
  disk_info : Option DiskInfo
  current_path : Option (List String)

/-- `DeletionProgress` of main.rs. -/
structure DeletionProgress where
  current : Nat
  total : Nat
  current_path : String
  success : Bool
  completed : Bool
  deleted_size : Option Nat
  deleted_count : Option Nat
deriving DecidableEq

/-- `BATCH_SIZE` constant of main.rs (line 19). -/
def BATCH_SIZE : Nat := 10000

/-- `MAX_DEPTH` constant of main.rs (line 20). -/
def MAX_DEPTH : Nat := 100

/-- `PATH_UPDATE_INTERVAL` constant of main.rs (line 21). -/
def PATH_UPDATE_INTERVAL : Nat := 10

/-- One entry of `sysinfo::Disks`: a mount point with total and available
bytes, as consumed by `get_disk_info`. -/
structure Disk where
  mount_point : String
  total_space : Nat
  available_space : Nat

/-- Rust's `str::starts_with` for strings: one string a prefix of another
(modelled on the character lists; Rust compares the UTF-8 bytes, which
agrees with character-prefix comparison on well-formed strings). -/
def str_starts_with (s pre : String) : Bool := pre.data.isPrefixOf s.data

/-- Rust's `str::replace` for the single-character pattern used by the
deletion engine: every occurrence of `a` becomes `b` (the engine replaces
backslash, code point 92, by forward slash, code point 47). -/
def str_replace_char (s : String) (a b : Char) : String :=
  String.mk (s.data.map (fun c => if c = a then b else c))

/-- Mount points summed by the macOS root-scan branch of `get_disk_info`
(main.rs lines 254-258). -/
def macos_sys_volume (dp : String) : Bool :=
  dp = "/" || str_starts_with dp "/System/Volumes/Data" ||
    str_starts_with dp "/System/Volumes/Preboot" || str_starts_with dp "/System/Volumes/VM" ||
    str_starts_with dp "/System/Volumes/Update"

/-- The best-match loop of the macOS `get_disk_info` (main.rs lines
218-238): the disk with the longest mount point that is a prefix of the
path, the first such disk winning ties, together with that length. -/
def macos_best_match (disks : List Disk) (path_str : String) : Option (Disk × Nat) :=
  disks.foldl
    (fun best disk =>
      if str_starts_with path_str disk.mount_point then
        match best with
        | some (_, current_length) =>
          if current_length < disk.mount_point.length then
            some (disk, disk.mount_point.length)
          else best
        | none => some (disk, disk.mount_point.length)
      else best)
    none

/-- The `#[cfg(target_os = "macos")]` body of `get_disk_info`
(main.rs lines 216-310): longest-prefix best match, then either the
root-scan aggregation over the APFS system volumes (summing per-volume
used space while keeping the last volume's shared total/available pair)
or the plain `used = total - available` for the matched disk. -/
def get_disk_info_macos (disks : List Disk) (path_str : String) : Option DiskInfo :=
  match macos_best_match disks path_str with
  | none => none
  | some (matched_disk, _) =>
    if path_str = "/" ∧ matched_disk.mount_point = "/" then
      let agg : Nat × Nat × Nat × Bool := disks.foldl
        (fun acc disk =>
          if macos_sys_volume disk.mount_point then
            (disk.total_space, disk.available_space,
              acc.2.2.1 + (disk.total_space - disk.available_space), true)
          else acc)
        (0, 0, 0, false)
      if agg.2.2.2 = true then
        some { total_space := agg.1, available_space := agg.2.1, used_space := agg.2.2.1 }
      else none
    else
      some { total_space := matched_disk.total_space,
             available_space := matched_disk.available_space,
             used_space := matched_disk.total_space - matched_disk.available_space }

/-- The `#[cfg(not(target_os = "macos"))]` body of `get_disk_info`
(main.rs lines 312-337): the first disk whose mount point is a string
prefix of the path, with `used = total - available`. -/
def get_disk_info_other (disks : List Disk) (path_str : String) : Option DiskInfo :=
  match disks.find? (fun disk => str_starts_with path_str disk.mount_point) with
  | some disk =>
    some { total_space := disk.total_space,
           available_space := disk.available_space,
           used_space := disk.total_space - disk.available_space }
  | none => none

/-- One path of a `delete_files_batch` request together with the facts the
engine queries about the filesystem object it denotes: existence, kind,
its on-disk size (`size_on_disk` for a file, `calculate_dir_size` for a
directory), and whether the removal call succeeds. -/
structure DelItem where
  path : String
  path_is_present : Bool
  is_file : Bool
  is_dir : Bool
  size_on_disk : Nat
  dir_size : Nat
  remove_ok : Bool

/-- Path-separator normalisation of `delete_files_batch`
(main.rs line 486): every backslash becomes a forward slash. -/
def normalize_path (p : String) : String := str_replace_char p (Char.ofNat 92) (Char.ofNat 47)

/-- The `size_before` computation of `delete_files_batch`
(main.rs lines 491-501). -/
def size_before (it : DelItem) : Nat :=
  if it.path_is_present then
    if it.is_file then it.size_on_disk
    else if it.is_dir then it.dir_size
    else 0
  else 0

/-- Whether the deletion attempt of one item succeeds (main.rs lines
516-522): files via `remove_file`, directories via `remove_dir_all`,
anything else is the synthetic "Not a file or directory" error. -/
def deletion_ok (it : DelItem) : Bool :=
  if it.is_file then it.remove_ok
  else if it.is_dir then it.remove_ok
  else false

/-- The status string of the completion event (main.rs lines 542-546). -/
def completion_path (failed : List String) : String :=
  if failed.isEmpty then "完成"
  else "完成 (" ++ toString failed.length ++ " 個失敗)"

/-- The normalised paths of the items whose deletion fails, in order
(the `failed_paths` vector of main.rs). -/
def failure_paths (items : List DelItem) : List String :=
  (items.filter (fun it => !deletion_ok it)).map (fun it => normalize_path it.path)

/-- The deletion loop of `delete_files_batch` (main.rs lines 479-552):
per item one progress event before the removal attempt, then the
aggregate completion event. -/
def delete_go (total : Nat) : List DelItem → Nat → Nat → Nat → List String → List DeletionProgress
  | [], _, deleted_count, deleted_size, failed =>
    [{ current := total, total := total, current_path := completion_path failed,
       success := failed.isEmpty, completed := true,
       deleted_size := some deleted_size, deleted_count := some deleted_count }]
  | it :: rest, index, deleted_count, deleted_size, failed =>
    let normalized := normalize_path it.path
    let sb := size_before it
    let ev : DeletionProgress :=
      { current := index + 1, total := total, current_path := normalized,
        success := false, completed := false, deleted_size := none, deleted_count := none }
    if deletion_ok it then
      ev :: delete_go total rest (index + 1) (deleted_count + 1) (deleted_size + sb) failed
    else
      ev :: delete_go total rest (index + 1) deleted_count deleted_size (failed ++ [normalized])

/-- `delete_files_batch` of main.rs: the full event sequence of one batch
deletion request. -/
def delete_files_batch (items : List DelItem) : List DeletionProgress :=
  delete_go items.length items 0 0 0 []

/-- The per-item progress events of a batch, starting at 1-based index
`index + 1` (the prefix of `delete_go`'s output). -/
def per_item_events (total : Nat) : Nat → List DelItem → List DeletionProgress
  | _, [] => []
  | index, it :: rest =>
    { current := index + 1, total := total, current_path := normalize_path it.path,
      success := false, completed := false, deleted_size := none, deleted_count := none } ::
      per_item_events total (index + 1) rest

/-- The filesystem as seen by one scan: a finite tree of entries.
`file` carries the on-disk (allocated) size `size_on_disk` reports;
`dir` carries its readable entry list; `baddir` is a directory whose
`read_dir` fails; `brokenLink` is a symbolic link whose target cannot be
resolved (so `fs::metadata`, which follows links, fails on it, as does
`fs::canonicalize`); `unreadable` is an entry whose `fs::metadata` fails
for any other reason (e.g. permissions). -/
inductive FSNode where
  | file (name : String) (size_on_disk : Nat) (ino : Nat)
  | dir (name : String) (ino : Nat) (entries : List FSNode)
  | baddir (name : String) (ino : Nat)
  | brokenLink (name : String)
  | unreadable (name : String)

/-- The entry's own name component. -/
def fsname : FSNode → String
  | .file n _ _ => n
  | .dir n _ _ => n
  | .baddir n _ => n
  | .brokenLink n => n
  | .unreadable n => n

/-- What `fs::metadata` returns: inode and file-type flags.  Because
`fs::metadata` traverses symbolic links, a successful result always
describes the target and never reports `is_symlink`. -/
structure FsMeta where
  ino : Nat
  is_file : Bool
  is_dir : Bool
  is_symlink : Bool

/-- `fs::metadata` on an entry: fails for a broken symlink (the traversal
cannot resolve the target) and for an unreadable entry. -/
def fs_metadata : FSNode → Option FsMeta
  | .file _ _ ino => some { ino := ino, is_file := true, is_dir := false, is_symlink := false }
  | .dir _ ino _ => some { ino := ino, is_file := false, is_dir := true, is_symlink := false }
  | .baddir _ ino => some { ino := ino, is_file := false, is_dir := true, is_symlink := false }
  | .brokenLink _ => none
  | .unreadable _ => none

/-- Whether `fs::canonicalize` succeeds on the entry.  In this model no
working symlinks occur, so a canonical path equals the entry's own path. -/
def canonicalize_ok : FSNode → Bool
  | .file _ _ _ => true
  | .dir _ _ _ => true
  | .baddir _ _ => true
  | .brokenLink _ => false
  | .unreadable _ => false

/-- `fs::read_dir` on an entry: the entry list of a readable directory. -/
def fs_read_dir : FSNode → Option (List FSNode)
  | .dir _ _ entries => some entries
  | _ => none

/-- `size_on_disk().unwrap_or(0)` of a file entry. -/
def fs_size_on_disk : FSNode → Nat
  | .file _ sz _ => sz
  | _ => 0

/-- `Path::parent` on a component path. -/
def path_parent (p : List String) : Option (List String) :=
  if p.isEmpty then none else some p.dropLast

/-- `ScanState` of main.rs: the shared scan-session state.  The
`AtomicBool` cancellation flag is replaced by the check counter `checks`
(the run's logical clock) against which a cancellation schedule is read;
everything else is a direct translation of the `Arc<Mutex<_>>` fields. -/
structure ScanState where
  counter : Nat
  scanned_size : Nat
  compact_batch_buffer : List CompactFileNode
  visited_inodes : List Nat
  recursion_stack : List (List String)
  checks : Nat
  current_path : List String
  path_update_counter : Nat

/-- `ScanState::new`. -/
def ScanState.new : ScanState :=
  { counter := 0, scanned_size := 0, compact_batch_buffer := [], visited_inodes := [],
    recursion_stack := [], checks := 0, current_path := [], path_update_counter := 0 }

/-- `ScanState::is_cancelled` under a cancellation schedule: the flag
reads true from the `cancelAt`-th check on (`none` = cancel is never
requested).  Each call advances the logical clock. -/
def ScanState.is_cancelled (cancelAt : Option Nat) (st : ScanState) : Bool × ScanState :=
  (match cancelAt with
   | some k => decide (k ≤ st.checks)
   | none => false,
   { st with checks := st.checks + 1 })

/-- `ScanState::increment_counter`. -/
def ScanState.increment_counter (st : ScanState) : ScanState :=
  { st with counter := st.counter + 1 }

/-- `ScanState::add_size`. -/
def ScanState.add_size (st : ScanState) (size : Nat) : ScanState :=
  { st with scanned_size := st.scanned_size + size }

/-- `ScanState::get_stats`. -/
def ScanState.get_stats (st : ScanState) : Nat × Nat := (st.counter, st.scanned_size)

/-- `ScanState::add_compact_to_buffer`: push a node and report whether the
buffer has reached `BATCH_SIZE`. -/
def ScanState.add_compact_to_buffer (st : ScanState) (node : CompactFileNode) :
    Bool × ScanState :=
  let buffer := st.compact_batch_buffer ++ [node]
  (decide (BATCH_SIZE ≤ buffer.length), { st with compact_batch_buffer := buffer })

/-- `ScanState::clear_compact_buffer`: drain and return the buffer. -/
def ScanState.clear_compact_buffer (st : ScanState) : List CompactFileNode × ScanState :=
  (st.compact_batch_buffer, { st with compact_batch_buffer := [] })

/-- `ScanState::is_visited_inode`. -/
def ScanState.is_visited_inode (st : ScanState) (ino : Nat) : Bool :=
  st.visited_inodes.contains ino

/-- `ScanState::mark_visited_inode` (the `HashSet::insert`; its Bool
result is ignored at the call site). -/
def ScanState.mark_visited_inode (st : ScanState) (ino : Nat) : ScanState :=
  if st.visited_inodes.contains ino then st
  else { st with visited_inodes := ino :: st.visited_inodes }

/-- `ScanState::push_to_recursion_stack` (the `HashSet::insert`; its Bool
result is ignored at the call site). -/
def ScanState.push_to_recursion_stack (st : ScanState) (p : List String) : ScanState :=
  if st.recursion_stack.contains p then st
  else { st with recursion_stack := p :: st.recursion_stack }

/-- `ScanState::pop_from_recursion_stack`. -/
def ScanState.pop_from_recursion_stack (st : ScanState) (p : List String) : ScanState :=
  { st with recursion_stack := st.recursion_stack.erase p }

/-- `ScanState::is_in_recursion_stack`. -/
def ScanState.is_in_recursion_stack (st : ScanState) (p : List String) : Bool :=
  st.recursion_stack.contains p

/-- `ScanState::set_current_path`. -/
def ScanState.set_current_path (st : ScanState) (p : List String) : ScanState :=
  { st with current_path := p }

/-- `ScanState::should_send_path_update`: increments the heartbeat
counter and reports (and resets) when it reaches
`PATH_UPDATE_INTERVAL`. -/
def ScanState.should_send_path_update (st : ScanState) : Bool × ScanState :=
  let counter := st.path_update_counter + 1
  if PATH_UPDATE_INTERVAL ≤ counter then (true, { st with path_update_counter := 0 })
  else (false, { st with path_update_counter := counter })

/-- `send_path_update` of main.rs (lines 665-682): the heartbeat message. -/
def send_path_update (st : ScanState) : PartialScanResult :=
  { nodes := [], compact_nodes := [], total_scanned := st.counter,
    total_size := st.scanned_size, is_complete := false, root_node := none,
    compact_root := none, disk_info := none, current_path := some st.current_path }

/-- `send_compact_batch` of main.rs (lines 645-663): drain the buffer into
one non-terminal batch message. -/
def send_compact_batch (st : ScanState) : PartialScanResult × ScanState :=
  let (compact_nodes, st2) := st.clear_compact_buffer
  ({ nodes := [], compact_nodes := compact_nodes, total_scanned := st.counter,
     total_size := st.scanned_size, is_complete := false, root_node := none,
     compact_root := none, disk_info := none, current_path := some st.current_path }, st2)

mutual

/-- `to_compact_node` of main.rs (lines 577-586). -/
def to_compact_node : FileNode → CompactFileNode
  | .mk name size _ children is_directory =>
    { name := name, size := size,
      children := match children with
        | some cs => some (to_compact_children cs)
        | none => none,
      is_directory := is_directory }

/-- `to_compact_node` mapped over a children list. -/
def to_compact_children : List FileNode → List CompactFileNode
  | [] => []
  | c :: cs => to_compact_node c :: to_compact_children cs

end

mutual

/-- `build_limited_depth_node_recursive` of main.rs (lines 688-713). -/
def build_limited_depth_node_recursive (node : FileNode) (current_depth max_depth : Nat) :
    FileNode :=
  if max_depth ≤ current_depth then
    { name := node.name, size := node.size, path := node.path,
      children := if node.is_directory then some [] else none,
      is_directory := node.is_directory }
  else
    match node with
    | .mk name size path children is_directory =>
      { name := name, size := size, path := path,
        children := match children with
          | some cs => some (build_limited_children cs (current_depth + 1) max_depth)
          | none => none,
        is_directory := is_directory }

/-- `build_limited_depth_node_recursive` mapped over a children list. -/
def build_limited_children (cs : List FileNode) (current_depth max_depth : Nat) :
    List FileNode :=
  match cs with
  | [] => []
  | c :: rest =>
    build_limited_depth_node_recursive c current_depth max_depth ::
      build_limited_children rest current_depth max_depth

end

/-- `build_limited_depth_node` of main.rs (lines 684-686). -/
def build_limited_depth_node (node : FileNode) (max_depth : Nat) : FileNode :=
  build_limited_depth_node_recursive node 0 max_depth

/-- The `par_iter().filter_map(...)` loop over a directory's entries
(main.rs lines 881-890), sequentialised in entry order and parameterised
by the per-entry scan: an extra heartbeat before each root-level entry,
then the recursive scan; an `Err` child yields no node. -/
def scan_children_go
    (scan : FSNode → ScanState → Except String FileNode × ScanState × List PartialScanResult) :
    List FSNode → Bool → ScanState →
    List FileNode × ScanState × List PartialScanResult
  | [], _, st => ([], st, [])
  | e :: rest, is_root_level, st =>
    let msgs0 := if is_root_level then [send_path_update st] else []
    let (res, st1, msgs1) := scan e st
    let (others, st2, msgs2) := scan_children_go scan rest is_root_level st1
    (match res with
     | .ok n => n :: others
     | .error _ => others, st2, msgs0 ++ msgs1 ++ msgs2)

/-- The body of `scan_directory_recursive` from the confinement check on
(main.rs lines 736-930), parameterised by the recursive per-entry scan
used for the directory's children. -/
def scan_entry
    (scan : FSNode → ScanState → Except String FileNode × ScanState × List PartialScanResult)
    (fs : FSNode) (path root_path : List String) (st : ScanState) :
    Except String FileNode × ScanState × List PartialScanResult :=
  let path_str := path
  if canonicalize_ok fs && !(root_path.isPrefixOf path) then
    (.ok { name := path.getLast?.getD "", size := 0, path := path_str,
           children := none, is_directory := false }, st, [])
  else if canonicalize_ok fs && ScanState.is_in_recursion_stack st path then
    (.ok { name := path.getLast?.getD "", size := 0, path := path_str,
           children := none, is_directory := false }, st, [])
  else
    match fs_metadata fs with
    | none => (.error "metadata error", st, [])
    | some md =>
      if ScanState.is_visited_inode st md.ino then
        (.ok { name := path.getLast?.getD "", size := 0, path := path_str,
               children := none, is_directory := false }, st, [])
      else
        let st := ScanState.mark_visited_inode st md.ino
        let name := path.getLast?.getD ""
        let st := ScanState.increment_counter st
        if md.is_symlink then
          -- main.rs lines 788-846: because `fs::metadata` follows links,
          -- a successful metadata never reports a symlink, so this branch
          -- is unreachable; only its unresolvable-link fallback (lines
          -- 838-845) is represented.
          (.ok { name := name, size := 0, path := path_str, children := none,
                 is_directory := false }, st, [])
        else if md.is_file then
          let file_size := fs_size_on_disk fs
          let st := ScanState.add_size st file_size
          (.ok { name := name, size := file_size, path := path_str, children := none,
                 is_directory := false }, st, [])
        else
          match fs_read_dir fs with
          | some entries =>
            let st := ScanState.push_to_recursion_stack st path
            let is_root_level := path == root_path
            let (children, st, msgs2) := scan_children_go scan entries is_root_level st
            let st := ScanState.pop_from_recursion_stack st path
            let dir_total_size := (children.map FileNode.size).sum
            let dir_node : FileNode :=
              { name := name, size := dir_total_size, path := path_str,
                children := some children, is_directory := true }
            if path_parent path = some root_path then
              let compact_dir := to_compact_node dir_node
              let (full, st) := ScanState.add_compact_to_buffer st compact_dir
              if full then
                let (m, st) := send_compact_batch st
                (.ok dir_node, st, msgs2 ++ [m])
              else (.ok dir_node, st, msgs2)
            else (.ok dir_node, st, msgs2)
          | none =>
            (.ok { name := name, size := 0, path := path_str, children := some [],
                   is_directory := true }, st, [])

/-- `scan_directory_recursive` of main.rs (lines 715-930), made total by a
recursion-depth fuel (the recursion's first argument; any fuel above the
tree depth is enough, fuel exhaustion is an error like any other `Err`):
the cancellation check, the heartbeat bookkeeping, then `scan_entry` on
this entry.  Returns the walker's result, the final state, and the
messages sent on the channel, in order. -/
def scan_directory_recursive (cancelAt : Option Nat) :
    Nat → FSNode → List String → List String → ScanState →
    Except String FileNode × ScanState × List PartialScanResult
  | 0, _, _, _, st => (.error "fuel exhausted", st, [])
  | fuel + 1, fs, path, root_path, st =>
    let (cancelled, st) := ScanState.is_cancelled cancelAt st
    if cancelled then (.error "Scan cancelled", st, [])
    else
      let st := ScanState.set_current_path st path
      let (upd, st) := ScanState.should_send_path_update st
      let msgs := if upd then [send_path_update st] else []
      let (res, st, msgs2) :=
        scan_entry
          (fun e st =>
            scan_directory_recursive cancelAt fuel e (path ++ [fsname e]) root_path st)
          fs path root_path st
      (res, st, msgs ++ msgs2)

/-- The initial message of `scan_directory_streaming` (main.rs lines
413-426), sent when disk info was resolved. -/
def initial_message (disk_info : Option DiskInfo) (root_path : List String) :
    PartialScanResult :=
  { nodes := [], compact_nodes := [], total_scanned := 0, total_size := 0,
    is_complete := false, root_node := none, compact_root := none,
    disk_info := disk_info, current_path := some root_path }

/-- The root metadata carried by the terminal message (main.rs lines
621-628): name, size and path of the given root with an empty children
list. -/
def final_root_metadata (root_node : FileNode) : FileNode :=
  { name := root_node.name, size := root_node.size, path := root_node.path,
    children := some [], is_directory := true }

/-- The terminal message `send_final_batch` sends. -/
def final_message (st : ScanState) (root_node : FileNode) (disk_info : Option DiskInfo) :
    PartialScanResult :=
  { nodes := [], compact_nodes := [], total_scanned := st.counter,
    total_size := st.scanned_size, is_complete := true,
    root_node := some (final_root_metadata root_node), compact_root := none,
    disk_info := disk_info, current_path := none }

/-- The compact projections of the root's non-directory children — the
root-level files `send_final_batch` appends to the final flush. -/
def root_level_files (root_node : FileNode) : List CompactFileNode :=
  match root_node.children with
  | some children => (children.filter (fun child => !child.is_directory)).map to_compact_node
  | none => []

/-- The flush message `send_final_batch` sends before the terminal one
when compact nodes remain. -/
def flush_message (st : ScanState) (remaining : List CompactFileNode) : PartialScanResult :=
  { nodes := [], compact_nodes := remaining, total_scanned := st.counter,
    total_size := st.scanned_size, is_complete := false, root_node := none,
    compact_root := none, disk_info := none, current_path := none }

/-- The walker's final state on a fresh session. -/
def walker_state (fs : FSNode) (root_path : List String) (cancelAt : Option Nat)
    (fuel : Nat) : ScanState :=
  (scan_directory_recursive cancelAt fuel fs root_path root_path ScanState.new).2.1

/-- `send_final_batch` of main.rs (lines 588-643): flush the buffer
together with the root-level files, then send the terminal message whose
`root_node` is the root's metadata with an empty children list. -/
def send_final_batch (st : ScanState) (root_node : FileNode) (disk_info : Option DiskInfo) :
    List PartialScanResult × ScanState :=
  let (total_items, total_size) := st.get_stats
  let (buf, st) := st.clear_compact_buffer
  let remaining_compact_nodes :=
    match root_node.children with
    | some children =>
      let root_files := (children.filter (fun child => !child.is_directory)).map to_compact_node
      if root_files.isEmpty then buf else buf ++ root_files
    | none => buf
  let batch_msgs :=
    if remaining_compact_nodes.isEmpty then []
    else
      [{ nodes := [], compact_nodes := remaining_compact_nodes, total_scanned := total_items,
         total_size := total_size, is_complete := false, root_node := none,
         compact_root := none, disk_info := none, current_path := none }]
  let root_metadata : FileNode :=
    { name := root_node.name, size := root_node.size, path := root_node.path,
      children := some [], is_directory := true }
  (batch_msgs ++
    [{ nodes := [], compact_nodes := [], total_scanned := total_items,
       total_size := total_size, is_complete := true, root_node := some root_metadata,
       compact_root := none, disk_info := disk_info, current_path := none }], st)

/-- The background body of `scan_directory_streaming` of main.rs (lines
392-444), for a root that exists: the optional initial disk-info message,
the walker, and — only when the walker returns `Ok` — the depth-limited
snapshot and `send_final_batch`.  `disk_info` is the value resolved at
scan start (`get_disk_info` when the root is a filesystem root, `none`
otherwise).  Returns the full message trace. -/
def scan_directory_streaming (fs : FSNode) (root_path : List String)
    (disk_info : Option DiskInfo) (cancelAt : Option Nat) (fuel : Nat) :
    List PartialScanResult :=
  let st := ScanState.new
  let init_msgs :=
    if disk_info.isSome then [initial_message disk_info root_path]
    else ([] : List PartialScanResult)
  match scan_directory_recursive cancelAt fuel fs root_path root_path st with
  | (.ok root_node, st, msgs) =>
    let limited_root := build_limited_depth_node root_node MAX_DEPTH
    init_msgs ++ msgs ++ (send_final_batch st limited_root disk_info).1
  | (.error _, _, msgs) => init_msgs ++ msgs

/-- The result-relevant fields of `ScanState`: visited counter, cumulative
size, batch buffer, inode set and recursion stack.  The remaining fields
(`checks`, `current_path`, `path_update_counter`) only influence which
heartbeat messages are sent, never the tree or the totals. -/
structure CoreState where
  counter : Nat
  scanned_size : Nat
  compact_batch_buffer : List CompactFileNode
  visited_inodes : List Nat
  recursion_stack : List (List String)

/-- Projection of a `ScanState` to its result-relevant fields. -/
def ScanState.core (st : ScanState) : CoreState :=
  { counter := st.counter, scanned_size := st.scanned_size,
    compact_batch_buffer := st.compact_batch_buffer,
    visited_inodes := st.visited_inodes, recursion_stack := st.recursion_stack }

/-- The children loop of `scan_core`: entry order, `Err` children dropped. -/
def scan_core_children_go
    (scan : FSNode → CoreState → Except String FileNode × CoreState) :
    List FSNode → CoreState → List FileNode × CoreState
  | [], c => ([], c)
  | e :: rest, c =>
    let (res, c1) := scan e c
    let (others, c2) := scan_core_children_go scan rest c1
    (match res with
     | .ok n => n :: others
     | .error _ => others, c2)

/-- The body of `scan_core` from the confinement check on, parameterised
by the recursive per-entry scan used for the directory's children. -/
def scan_core_entry
    (scan : FSNode → CoreState → Except String FileNode × CoreState)
    (fs : FSNode) (path root_path : List String) (c : CoreState) :
    Except String FileNode × CoreState :=
  if canonicalize_ok fs && !(root_path.isPrefixOf path) then
    (.ok { name := path.getLast?.getD "", size := 0, path := path,
           children := none, is_directory := false }, c)
  else if canonicalize_ok fs && c.recursion_stack.contains path then
    (.ok { name := path.getLast?.getD "", size := 0, path := path,
           children := none, is_directory := false }, c)
  else
    match fs_metadata fs with
    | none => (.error "metadata error", c)
    | some md =>
      if c.visited_inodes.contains md.ino then
        (.ok { name := path.getLast?.getD "", size := 0, path := path,
               children := none, is_directory := false }, c)
      else
        let c := if c.visited_inodes.contains md.ino then c
          else { c with visited_inodes := md.ino :: c.visited_inodes }
        let name := path.getLast?.getD ""
        let c := { c with counter := c.counter + 1 }
        if md.is_symlink then
          (.ok { name := name, size := 0, path := path, children := none,
                 is_directory := false }, c)
        else if md.is_file then
          let file_size := fs_size_on_disk fs
          let c := { c with scanned_size := c.scanned_size + file_size }
          (.ok { name := name, size := file_size, path := path, children := none,
                 is_directory := false }, c)
        else
          match fs_read_dir fs with
          | some entries =>
            let c := if c.recursion_stack.contains path then c
              else { c with recursion_stack := path :: c.recursion_stack }
            let (children, c) := scan_core_children_go scan entries c
            let c := { c with recursion_stack := c.recursion_stack.erase path }
            let dir_total_size := (children.map FileNode.size).sum
            let dir_node : FileNode :=
              { name := name, size := dir_total_size, path := path,
                children := some children, is_directory := true }
            if path_parent path = some root_path then
              let buffer := c.compact_batch_buffer ++ [to_compact_node dir_node]
              if BATCH_SIZE ≤ buffer.length then
                (.ok dir_node, { c with compact_batch_buffer := [] })
              else
                (.ok dir_node, { c with compact_batch_buffer := buffer })
            else (.ok dir_node, c)
          | none =>
            (.ok { name := name, size := 0, path := path, children := some [],
                   is_directory := true }, c)

/-- `scan_directory_recursive` restricted to its result-relevant effects:
no cancellation (the schedule is `none`), no heartbeat bookkeeping and no
messages.  `scan_abstracts_core` proves it computes the same tree and the
same `CoreState` as the full walker. -/
def scan_core : Nat → FSNode → List String → List String → CoreState →
    Except String FileNode × CoreState
  | 0, _, _, _, c => (.error "fuel exhausted", c)
  | fuel + 1, fs, path, root_path, c =>
    scan_core_entry
      (fun e c => scan_core fuel e (path ++ [fsname e]) root_path c)
      fs path root_path c

mutual

/-- The size invariant of the data model: a directory's size is the sum of
its direct children's sizes (children present), a file has no children. -/
def treeInv : FileNode → Bool
  | .mk _ size _ children is_directory =>
    match is_directory, children with
    | true, some cs => (size == (cs.map FileNode.size).sum) && treeInvAll cs
    | true, none => false
    | false, none => true
    | false, some _ => false

/-- `treeInv` over a children list. -/
def treeInvAll : List FileNode → Bool
  | [] => true
  | c :: cs => treeInv c && treeInvAll cs

end

/-- The node of a tree at a position given by the child indices along the
path from the root (so the position's length is the node's depth). -/
def getNode : FileNode → List Nat → Option FileNode
  | n, [] => some n
  | n, i :: rest =>
    match n.children with
    | some cs =>
      match cs[i]? with
      | some c => getNode c rest
      | none => none
    | none => none

mutual

/-- Every non-directory node of the tree is childless (`children = none`). -/
def filesChildless : FileNode → Bool
  | .mk _ _ _ children is_directory =>
    match children with
    | none => true
    | some cs => is_directory && filesChildlessAll cs

/-- `filesChildless` over a children list. -/
def filesChildlessAll : List FileNode → Bool
  | [] => true
  | c :: cs => filesChildless c && filesChildlessAll cs

end

/-- Scenario for C1: a root directory holding one 5-byte file. -/
def c1fs : FSNode := .dir "r" 0 [.file "f" 5 1]

/-- The tree the walker produces for `c1fs`. -/
def c1R : FileNode :=
  { name := "r", size := 5, path := ["r"],
    children := some [{ name := "f", size := 5, path := ["r", "f"],
                        children := none, is_directory := false }],
    is_directory := true }

/-- The `root_node` the terminal message carries for `c1fs`: the root's
metadata with an empty children list. -/
def c1Meta : FileNode :=
  { name := "r", size := 5, path := ["r"], children := some [], is_directory := true }

/-- Scenario for C2: a root directory holding one 10-byte file. -/
def c2fs : FSNode := .dir "r" 0 [.file "f" 10 1]

/-- Scenario for C4 (the spec's concrete scenario): root directory with a
subdirectory `A` holding a 100-byte file `a1`, and a root-level 50-byte
file `f1`. -/
def c4fs : FSNode := .dir "r" 1 [.dir "A" 2 [.file "a1" 100 3], .file "f1" 50 4]

/-- The tree the walker produces for `c4fs`. -/
def c4R : FileNode :=
  { name := "r", size := 150, path := ["r"],
    children := some
      [{ name := "A", size := 100, path := ["r", "A"],
         children := some [{ name := "a1", size := 100, path := ["r", "A", "a1"],
                             children := none, is_directory := false }],
         is_directory := true },
       { name := "f1", size := 50, path := ["r", "f1"],
         children := none, is_directory := false }],
    is_directory := true }

/-- Disk list for the C5 counterexample: a macOS system with the APFS data
volume sharing the capacity pool of "/". -/
def c5_disks : List Disk :=
  [{ mount_point := "/", total_space := 100, available_space := 40 },
   { mount_point := "/System/Volumes/Data", total_space := 200, available_space := 80 }]

/-- Scenario for C8: a root directory holding one broken symbolic link. -/
def c8fs : FSNode := .dir "r" 0 [.brokenLink "lnk"]

/-- A file under `k` nested directories, each reporting size 5 (used to
exercise the depth limit). -/
def c6_chain : Nat → FileNode
  | 0 => { name := "f", size := 5, path := [], children := none, is_directory := false }
  | k + 1 => { name := "d", size := 5, path := [],
               children := some [c6_chain k], is_directory := true }

/-- Deletion batch of the spec's scenario: three files of sizes 10, 20 and
30 bytes where the second removal fails. -/
def c9_items : List DelItem :=
  [{ path := "a", path_is_present := true, is_file := true, is_dir := false,
     size_on_disk := 10, dir_size := 0, remove_ok := true },
   { path := "b", path_is_present := true, is_file := true, is_dir := false,
     size_on_disk := 20, dir_size := 0, remove_ok := false },
   { path := "c", path_is_present := true, is_file := true, is_dir := false,
     size_on_disk := 30, dir_size := 0, remove_ok := true }]

theorem delete_go_eq (items : List DelItem) : ∀ (total index dc ds : Nat) (failed : List String),
    delete_go total items index dc ds failed =
      per_item_events total index items ++
        [{ current := total, total := total,
           current_path := completion_path (failed ++ failure_paths items),
           success := (failed ++ failure_paths items).isEmpty, completed := true,
           deleted_size := some (ds + ((items.filter deletion_ok).map size_before).sum),
           deleted_count := some (dc + (items.filter deletion_ok).length) }] := by
  induction items with
  | nil =>
    intro total index dc ds failed
    simp [delete_go, per_item_events, failure_paths]
  | cons it rest ih =>
    intro total index dc ds failed
    by_cases h : deletion_ok it = true
    · have hfp : failure_paths (it :: rest) = failure_paths rest := by
        simp [failure_paths, List.filter_cons, h]
      have hfilter : (it :: rest).filter deletion_ok = it :: rest.filter deletion_ok := by
        simp [List.filter_cons, h]
      simp only [delete_go, h, if_true]
      rw [ih total (index + 1) (dc + 1) (ds + size_before it) failed]
      rw [hfp, hfilter]
      simp only [per_item_events, List.cons_append, List.map_cons, List.sum_cons,
        List.length_cons]
      refine congrArg₂ List.cons rfl ?_
      refine congrArg (fun l => per_item_events total (index + 1) rest ++ l) ?_
      refine congrArg (fun x => [x]) ?_
      simp only [DeletionProgress.mk.injEq, Option.some.injEq, true_and, and_true,
        eq_self_iff_true]
      omega
    · have hfp : failure_paths (it :: rest) = normalize_path it.path :: failure_paths rest := by
        simp [failure_paths, List.filter_cons, h]
      have hfilter : (it :: rest).filter deletion_ok = rest.filter deletion_ok := by
        simp [List.filter_cons, h]
      simp only [delete_go, h, if_false, Bool.false_eq_true]
      rw [ih total (index + 1) dc ds (failed ++ [normalize_path it.path])]
      rw [hfp, hfilter]
      simp only [per_item_events, List.cons_append, List.append_assoc,
        List.singleton_append, List.nil_append]

theorem per_item_events_length (total : Nat) :
    ∀ (index : Nat) (items : List DelItem), (per_item_events total index items).length = items.length := by
  intro index items
  induction items generalizing index with
  | nil => simp [per_item_events]
  | cons it rest ih => simp [per_item_events, ih]

theorem per_item_events_getElem (total : Nat) :
    ∀ (items : List DelItem) (index i : Nat) (it : DelItem), items[i]? = some it →
      (per_item_events total index items)[i]? =
        some { current := index + i + 1, total := total, current_path := normalize_path it.path,
               success := false, completed := false, deleted_size := none, deleted_count := none } := by
  intro items
  induction items with
  | nil => intro index i it h; simp at h
  | cons hd rest ih =>
    intro index i it h
    cases i with
    | zero =>
      simp at h
      subst h
      simp [per_item_events]
    | succ j =>
      simp only [List.getElem?_cons_succ] at h
      simp only [per_item_events, List.getElem?_cons_succ]
      have harith : index + (j + 1) = index + 1 + j := by omega
      rw [harith]
      exact ih (index + 1) j it h

theorem failure_paths_isEmpty (items : List DelItem) :
    (failure_paths items).isEmpty = items.all deletion_ok := by
  induction items with
  | nil => simp [failure_paths]
  | cons it rest ih =>
    by_cases h : deletion_ok it = true
    · simp only [failure_paths, List.filter_cons, h] at ih ⊢
      simpa [h] using ih
    · simp [failure_paths, List.filter_cons, h]

theorem delete_files_batch_per_item (items : List DelItem) (i : Nat) (it : DelItem)
    (h : items[i]? = some it) :
    (delete_files_batch items)[i]? =
      some { current := i + 1, total := items.length, current_path := normalize_path it.path,
             success := false, completed := false, deleted_size := none, deleted_count := none } := by
  have hi : i < items.length := by
    rcases List.getElem?_eq_some_iff.mp h with ⟨hlt, _⟩
    exact hlt
  have hlen := per_item_events_length items.length 0 items
  rw [delete_files_batch, delete_go_eq items items.length 0 0 0 []]
  rw [List.getElem?_append_left (by omega : i < (per_item_events items.length 0 items).length)]
  have hget := per_item_events_getElem items.length items 0 i it h
  rw [hget]
  have harith : 0 + i + 1 = i + 1 := by omega
  rw [harith]

theorem delete_files_batch_completion (items : List DelItem) :
    (delete_files_batch items)[items.length]? =
      some { current := items.length, total := items.length,
             current_path :=
               (if items.all deletion_ok then "完成"
                else "完成 (" ++ toString (items.filter (fun it => !deletion_ok it)).length ++ " 個失敗)"),
             success := items.all deletion_ok, completed := true,
             deleted_size := some (((items.filter deletion_ok).map size_before).sum),
             deleted_count := some ((items.filter deletion_ok).length) } := by
  have hlen := per_item_events_length items.length 0 items
  have hfl : (failure_paths items).length = (items.filter (fun it => !deletion_ok it)).length := by
    simp [failure_paths]
  rw [delete_files_batch, delete_go_eq items items.length 0 0 0 []]
  rw [List.getElem?_append_right (by omega : (per_item_events items.length 0 items).length ≤ items.length)]
  rw [hlen, Nat.sub_self]
  simp only [List.getElem?_cons_zero, List.nil_append, Nat.zero_add, Option.some.injEq]
  rw [completion_path, failure_paths_isEmpty, hfl]

theorem delete_files_batch_length (items : List DelItem) :
    (delete_files_batch items).length = items.length + 1 := by
  rw [delete_files_batch, delete_go_eq items items.length 0 0 0 []]
  simp [per_item_events_length]

/-- C9: for a batch deletion of N paths the event sequence is exactly N
per-item progress events (in caller order, 1-based index, before each
attempt) followed by exactly one completion event; its success flag is
true iff no deletion failed, and its deleted count/size are the number of
successfully removed items and the sum of their pre-deletion sizes. -/
theorem c9_batch_deletion (items : List DelItem) :
    (delete_files_batch items).length = items.length + 1 ∧
    (∀ i it, items[i]? = some it →
      (delete_files_batch items)[i]? =
        some ({ current := i + 1, total := items.length, current_path := normalize_path it.path,
                success := false, completed := false, deleted_size := none,
                deleted_count := none } : DeletionProgress)) ∧
    (delete_files_batch items)[items.length]? =
      some ({ current := items.length, total := items.length,
              current_path :=
                (if items.all deletion_ok then "完成"
                 else "完成 (" ++ toString (items.filter (fun it => !deletion_ok it)).length ++ " 個失敗)"),
              success := items.all deletion_ok, completed := true,
              deleted_size := some (((items.filter deletion_ok).map size_before).sum),
              deleted_count := some ((items.filter deletion_ok).length) } : DeletionProgress) :=
  ⟨delete_files_batch_length items,
   fun i it h => delete_files_batch_per_item items i it h,
   delete_files_batch_completion items⟩

/-- C10: every per-item (non-final) progress event carries success=false,
completed=false and no aggregate fields, and is the same event whatever
the item's removal outcome is — the outcome of an individual deletion is
never reported per item. -/
theorem c10_per_item_outcome_hidden (items : List DelItem) (i : Nat) (it : DelItem)
    (h : items[i]? = some it) :
    ∃ e, (delete_files_batch items)[i]? = some e ∧
      e.success = false ∧ e.completed = false ∧
      e.deleted_size = none ∧ e.deleted_count = none ∧
      ∀ b, (delete_files_batch (items.set i { it with remove_ok := b }))[i]? = some e := by
  have hi : i < items.length := by
    rcases List.getElem?_eq_some_iff.mp h with ⟨hlt, _⟩
    exact hlt
  refine ⟨({ current := i + 1, total := items.length, current_path := normalize_path it.path,
             success := false, completed := false, deleted_size := none,
             deleted_count := none } : DeletionProgress),
    delete_files_batch_per_item items i it h, rfl, rfl, rfl, rfl, ?_⟩
  intro b
  have hset : (items.set i { it with remove_ok := b })[i]? = some { it with remove_ok := b } := by
    simp [List.getElem?_set_self, hi]
  have := delete_files_batch_per_item (items.set i { it with remove_ok := b }) i
    { it with remove_ok := b } hset
  rw [this]
  simp [List.length_set]

/-- C2: the claim says a cancel issued after the scan starts and before it
completes means no `is_complete` message is ever emitted.  The code
violates it: when the cancellation becomes visible only after the walker's
first (root-level) check, every cancelled child returns
`Err("Scan cancelled")`, which the `par_iter().filter_map(.ok())` of
main.rs line 888 silently drops, so the root call still returns `Ok` and
`send_final_batch` emits a terminal message with partial totals.  Only a
cancellation visible at the very first check (schedule 0) aborts the walk
and suppresses the terminal message. -/
theorem c2_cancel_midscan_still_completes :
    (scan_directory_streaming c2fs ["r"] none (some 1) 10).any (fun m => m.is_complete) = true ∧
    (scan_directory_streaming c2fs ["r"] none (some 1) 10).getLast?.map
      (fun m => (m.total_scanned, m.total_size)) = some (1, 0) ∧
    (scan_directory_streaming c2fs ["r"] none (some 0) 10).any (fun m => m.is_complete) = false :=
  ⟨rfl, rfl, rfl⟩

/-- C8: the claim says a broken symbolic link is recorded as a zero-size
childless leaf in its parent's children.  The code drops the entry
entirely: `fs::metadata` (main.rs line 765) follows the link, fails, and
the `Err` child is filtered out, so the parent's children list stays
empty and the visited counter only counts the parent; the symlink branch
of main.rs lines 788-846 is unreachable. -/
theorem c8_broken_symlink_dropped :
    (scan_directory_recursive none 10 c8fs ["r"] ["r"] ScanState.new).1 =
      .ok { name := "r", size := 0, path := ["r"], children := some [], is_directory := true } ∧
    (scan_directory_recursive none 10 c8fs ["r"] ["r"] ScanState.new).2.1.counter = 1 :=
  ⟨rfl, rfl⟩

/-- C4 counterexample: in the spec's concrete scenario the terminal
message reports `totalScanned = 4`, not 3 — the walker also counts the
scanned root directory itself (main.rs line 785). -/
theorem c4_counterexample :
    (scan_directory_streaming c4fs ["r"] none none 10).getLast?.map
      (fun m => m.total_scanned) = some 4 ∧
    ¬ ((scan_directory_streaming c4fs ["r"] none none 10).getLast?.map
      (fun m => m.total_scanned) = some 3) :=
  ⟨rfl, by decide⟩

/-- C4 amended: in the spec's concrete scenario the terminal message
reports `totalSize = 150` and `totalScanned = 4` (root-level file,
subdirectory file, the directory, and the scanned root itself), the
walker's final tree has exactly the children `A` (size 100, one child
`a1`) and `f1` (size 50, no children), the depth-limited snapshot leaves
that tree unchanged, and the terminal message's `root_node` carries the
root's metadata with an empty children list. -/
theorem c4_amended_scenario :
    (scan_directory_recursive none 10 c4fs ["r"] ["r"] ScanState.new).1 = .ok c4R ∧
    build_limited_depth_node c4R MAX_DEPTH = c4R ∧
    (scan_directory_streaming c4fs ["r"] none none 10).getLast? =
      some { nodes := [], compact_nodes := [], total_scanned := 4, total_size := 150,
             is_complete := true,
             root_node := some { name := "r", size := 150, path := ["r"],
                                 children := some [], is_directory := true },
             compact_root := none, disk_info := none, current_path := none } :=
  ⟨rfl, rfl, rfl⟩

/-- C5 counterexample: on a macOS root scan the aggregation loop of
`get_disk_info` (main.rs lines 244-288) sums the per-volume used space
while reporting the shared total/available pair of the last matching
volume, so `used_space = 180` while `total_space - available_space =
120`. -/
theorem c5_counterexample :
    get_disk_info_macos c5_disks "/" =
      some { total_space := 200, available_space := 80, used_space := 180 } ∧
    (180 : Nat) ≠ 200 - 80 :=
  ⟨rfl, by decide⟩

/-- C5 amended: every `DiskInfo` produced by the non-macOS resolver, and
by the macOS resolver for a non-root path, satisfies
`used_space = total_space - available_space`; only the macOS root-scan
aggregation (which sums used space across the APFS system volumes)
departs from it. -/
theorem c5_used_space_recomputed :
    (∀ (disks : List Disk) (p : String) (d : DiskInfo),
      get_disk_info_other disks p = some d →
        d.used_space = d.total_space - d.available_space) ∧
    (∀ (disks : List Disk) (p : String) (d : DiskInfo), p ≠ "/" →
      get_disk_info_macos disks p = some d →
        d.used_space = d.total_space - d.available_space) := by
  constructor
  · intro disks p d h
    unfold get_disk_info_other at h
    cases hf : disks.find? (fun disk => str_starts_with p disk.mount_point) with
    | none => rw [hf] at h; exact absurd h (by simp)
    | some disk =>
      rw [hf] at h
      injection h with h
      subst h
      rfl
  · intro disks p d hp h
    unfold get_disk_info_macos at h
    cases hbm : macos_best_match disks p with
    | none => rw [hbm] at h; exact absurd h (by simp)
    | some pair =>
      obtain ⟨matched_disk, len⟩ := pair
      rw [hbm] at h
      dsimp only at h
      have hcond : ¬(p = "/" ∧ matched_disk.mount_point = "/") := fun hc => hp hc.1
      rw [if_neg hcond] at h
      injection h with h
      subst h
      rfl

/-- Witness for `c5_used_space_recomputed` at a concrete disk list and
path. -/
theorem c5_used_space_recomputed_witness :
    get_disk_info_other [{ mount_point := "/", total_space := 100, available_space := 40 }]
        "/data" = some { total_space := 100, available_space := 40, used_space := 60 } ∧
    ("/data" : String) ≠ "/" ∧
    ({ total_space := 100, available_space := 40, used_space := 60 } : DiskInfo).used_space =
      ({ total_space := 100, available_space := 40, used_space := 60 } : DiskInfo).total_space -
        ({ total_space := 100, available_space := 40, used_space := 60 } : DiskInfo).available_space :=
  ⟨rfl, by decide,
   c5_used_space_recomputed.1 [{ mount_point := "/", total_space := 100, available_space := 40 }]
     "/data" { total_space := 100, available_space := 40, used_space := 60 } rfl⟩

/-- C1 counterexample: for `c1fs` the walker's tree is `c1R`, the terminal
message's `root_node` is the metadata node `c1Meta` with empty children
(main.rs lines 621-628 send "root metadata only"), and that is not the
depth-limited snapshot of the scanned root, which keeps the root's child. -/
theorem c1_counterexample :
    (scan_directory_recursive none 10 c1fs ["r"] ["r"] ScanState.new).1 = .ok c1R ∧
    (scan_directory_streaming c1fs ["r"] none none 10).getLast?.map
      (fun m => m.root_node) = some (some c1Meta) ∧
    ¬ (c1Meta = build_limited_depth_node c1R MAX_DEPTH) :=
  ⟨rfl, rfl,
   fun h => absurd (congrArg (fun n => (n.children.getD []).length) h) (by decide)⟩

/-- Witness for `c9_batch_deletion` at the spec's three-path scenario
whose second removal fails. -/
theorem c9_batch_deletion_witness :
    (delete_files_batch c9_items)[1]? =
      some { current := 2, total := 3, current_path := "b", success := false,
             completed := false, deleted_size := none, deleted_count := none } ∧
    (delete_files_batch c9_items)[3]? =
      some { current := 3, total := 3, current_path := "完成 (1 個失敗)", success := false,
             completed := true, deleted_size := some 40, deleted_count := some 2 } :=
  ⟨(c9_batch_deletion c9_items).2.1 1 c9_items[1] rfl,
   (c9_batch_deletion c9_items).2.2⟩

/-- Witness for `c10_per_item_outcome_hidden` at the second item of the
spec's three-path scenario. -/
theorem c10_per_item_outcome_hidden_witness :
    ∃ e, (delete_files_batch c9_items)[1]? = some e ∧
      e.success = false ∧ e.completed = false ∧
      e.deleted_size = none ∧ e.deleted_count = none ∧
      ∀ b, (delete_files_batch (c9_items.set 1 { c9_items[1] with remove_ok := b }))[1]? = some e :=
  c10_per_item_outcome_hidden c9_items 1 c9_items[1] rfl

theorem build_limited_children_getElem (cs : List FileNode) (cd md i : Nat) :
    (build_limited_children cs cd md)[i]? =
      (cs[i]?).map (fun c => build_limited_depth_node_recursive c cd md) := by
  induction cs generalizing i with
  | nil => simp [build_limited_children]
  | cons c rest ih =>
    cases i with
    | zero => simp [build_limited_children]
    | succ j => simp [build_limited_children, ih]

theorem build_limited_name (n : FileNode) (cd md : Nat) :
    (build_limited_depth_node_recursive n cd md).name = n.name := by
  cases n
  unfold build_limited_depth_node_recursive
  by_cases h : md ≤ cd <;> simp [h]

theorem build_limited_size (n : FileNode) (cd md : Nat) :
    (build_limited_depth_node_recursive n cd md).size = n.size := by
  cases n
  unfold build_limited_depth_node_recursive
  by_cases h : md ≤ cd <;> simp [h]

theorem build_limited_path (n : FileNode) (cd md : Nat) :
    (build_limited_depth_node_recursive n cd md).path = n.path := by
  cases n
  unfold build_limited_depth_node_recursive
  by_cases h : md ≤ cd <;> simp [h]

theorem build_limited_is_directory (n : FileNode) (cd md : Nat) :
    (build_limited_depth_node_recursive n cd md).is_directory = n.is_directory := by
  cases n
  unfold build_limited_depth_node_recursive
  by_cases h : md ≤ cd <;> simp [h]

theorem build_limited_children_eq (n : FileNode) (cd md : Nat) :
    (build_limited_depth_node_recursive n cd md).children =
      if md ≤ cd then (if n.is_directory then some [] else none)
      else n.children.map (fun cs => build_limited_children cs (cd + 1) md) := by
  cases n with
  | mk name size path children is_directory =>
    unfold build_limited_depth_node_recursive
    by_cases h : md ≤ cd
    · simp [h]
    · cases children <;> simp [h]

theorem filesChildless_children_none (n : FileNode) (h : filesChildless n = true)
    (hd : n.is_directory = false) : n.children = none := by
  cases n with
  | mk name size path children is_directory =>
    cases children with
    | none => rfl
    | some cs =>
      simp only [filesChildless] at h
      simp only at hd
      rw [hd] at h
      simp at h

theorem filesChildlessAll_getElem {cs : List FileNode} {i : Nat} {c : FileNode}
    (hall : filesChildlessAll cs = true) (h : cs[i]? = some c) : filesChildless c = true := by
  induction cs generalizing i with
  | nil => simp at h
  | cons hd rest ih =>
    simp only [filesChildlessAll, Bool.and_eq_true] at hall
    cases i with
    | zero => simp at h; subst h; exact hall.1
    | succ j =>
      simp only [List.getElem?_cons_succ] at h
      exact ih hall.2 h

theorem filesChildless_child (n : FileNode) (cs : List FileNode) (i : Nat) (c : FileNode)
    (h : filesChildless n = true) (hcs : n.children = some cs) (hc : cs[i]? = some c) :
    filesChildless c = true := by
  cases n with
  | mk name size path children is_directory =>
    simp only at hcs
    subst hcs
    simp only [filesChildless, Bool.and_eq_true] at h
    exact filesChildlessAll_getElem h.2 hc

theorem build_limited_getNode (md : Nat) : ∀ (pos : List Nat) (n : FileNode) (cd : Nat)
    (m : FileNode), getNode (build_limited_depth_node_recursive n cd md) pos = some m →
    ∃ m0, getNode n pos = some m0 ∧
      m.name = m0.name ∧ m.size = m0.size ∧ m.path = m0.path ∧
      m.is_directory = m0.is_directory ∧
      (md ≤ cd + pos.length → m.children = if m0.is_directory then some [] else none) ∧
      (filesChildless n = true → m0.is_directory = false → m.children = none) := by
  intro pos
  induction pos with
  | nil =>
    intro n cd m h
    simp only [getNode, Option.some.injEq] at h
    subst h
    refine ⟨n, rfl, build_limited_name n cd md, build_limited_size n cd md,
      build_limited_path n cd md, build_limited_is_directory n cd md, ?_, ?_⟩
    · intro hcut
      simp only [List.length_nil, Nat.add_zero] at hcut
      rw [build_limited_children_eq, if_pos hcut]
    · intro hfc hdir
      rw [build_limited_children_eq]
      by_cases hcut : md ≤ cd
      · rw [if_pos hcut]
        simp [hdir]
      · rw [if_neg hcut, filesChildless_children_none n hfc hdir]
        rfl
  | cons i rest ih =>
    intro n cd m h
    simp only [getNode] at h
    rw [build_limited_children_eq] at h
    by_cases hcut : md ≤ cd
    · rw [if_pos hcut] at h
      cases hdirb : n.is_directory <;> rw [hdirb] at h <;> simp at h
    · rw [if_neg hcut] at h
      cases hcs : n.children with
      | none => rw [hcs] at h; simp at h
      | some cs =>
        rw [hcs] at h
        simp only [Option.map_some'] at h
        rw [build_limited_children_getElem] at h
        cases hci : cs[i]? with
        | none => rw [hci] at h; simp at h
        | some c =>
          rw [hci] at h
          simp only [Option.map_some'] at h
          obtain ⟨m0, hget, hname, hsize, hpath, hdir, hcutoff, hfc⟩ := ih c (cd + 1) m h
          refine ⟨m0, ?_, hname, hsize, hpath, hdir, ?_, ?_⟩
          · simp only [getNode, hcs, hci]
            exact hget
          · intro hle
            exact hcutoff (by simp at hle ⊢; omega)
          · intro hfcn hm0
            exact hfc (filesChildless_child n cs i c hfcn hcs hci) hm0

theorem build_limited_getNode_total (md : Nat) : ∀ (pos : List Nat) (n : FileNode) (cd : Nat),
    pos.length + cd ≤ md → (getNode n pos).isSome →
    (getNode (build_limited_depth_node_recursive n cd md) pos).isSome := by
  intro pos
  induction pos with
  | nil => intro n cd _ _; simp [getNode]
  | cons i rest ih =>
    intro n cd hlen hsome
    simp only [getNode] at hsome
    cases hcs : n.children with
    | none => rw [hcs] at hsome; simp at hsome
    | some cs =>
      rw [hcs] at hsome
      dsimp only at hsome
      cases hci : cs[i]? with
      | none => rw [hci] at hsome; simp at hsome
      | some c =>
        rw [hci] at hsome
        simp only [getNode]
        rw [build_limited_children_eq, if_neg (by simp at hlen; omega : ¬ md ≤ cd), hcs]
        simp only [Option.map_some']
        rw [build_limited_children_getElem, hci]
        simp only [Option.map_some']
        exact ih c (cd + 1) (by simp at hlen ⊢; omega) hsome

/-- C6: for every input tree and the fixed depth limit of 100, every node
retained by the depth-limiting snapshotter keeps its input name, size,
path and directory flag; a node at the cutoff depth reports an empty
children list when it is a directory and stays childless when it is a
file (childlessness of files also below the cutoff whenever the input's
files are childless); and every input node down to the cutoff depth is
retained, so truncation removes only deeper structure and never changes
any size. -/
theorem c6_depth_limited_snapshot :
    (∀ (n : FileNode) (pos : List Nat) (m : FileNode),
      getNode (build_limited_depth_node n MAX_DEPTH) pos = some m →
      ∃ m0, getNode n pos = some m0 ∧
        m.name = m0.name ∧ m.size = m0.size ∧ m.path = m0.path ∧
        m.is_directory = m0.is_directory ∧
        (MAX_DEPTH ≤ pos.length → m.children = if m0.is_directory then some [] else none) ∧
        (filesChildless n = true → m0.is_directory = false → m.children = none)) ∧
    (∀ (n : FileNode) (pos : List Nat), pos.length ≤ MAX_DEPTH →
      (getNode n pos).isSome → (getNode (build_limited_depth_node n MAX_DEPTH) pos).isSome) := by
  constructor
  · intro n pos m h
    have := build_limited_getNode MAX_DEPTH pos n 0 m h
    obtain ⟨m0, hget, hname, hsize, hpath, hdir, hcutoff, hfc⟩ := this
    exact ⟨m0, hget, hname, hsize, hpath, hdir, fun hle => hcutoff (by omega), hfc⟩
  · intro n pos hlen hsome
    exact build_limited_getNode_total MAX_DEPTH pos n 0 (by omega) hsome

theorem treeInv_leaf (nm : String) (sz : Nat) (p : List String) :
    treeInv { name := nm, size := sz, path := p, children := none, is_directory := false } = true := by
  simp [treeInv]

theorem treeInv_emptydir (nm : String) (p : List String) :
    treeInv { name := nm, size := 0, path := p, children := some [], is_directory := true } = true := by
  simp [treeInv, treeInvAll]

theorem treeInvAll_iff (cs : List FileNode) :
    treeInvAll cs = true ↔ ∀ c ∈ cs, treeInv c = true := by
  induction cs with
  | nil => simp [treeInvAll]
  | cons c rest ih => simp [treeInvAll, ih]

theorem scan_children_go_treeInv
    (scan : FSNode → ScanState → Except String FileNode × ScanState × List PartialScanResult)
    (hscan : ∀ e st node, (scan e st).1 = .ok node → treeInv node = true) :
    ∀ (es : List FSNode) (irl : Bool) (st : ScanState) (n : FileNode),
      n ∈ (scan_children_go scan es irl st).1 → treeInv n = true := by
  intro es
  induction es with
  | nil => intro irl st n hn; simp [scan_children_go] at hn
  | cons e rest ih =>
    intro irl st n hn
    simp only [scan_children_go] at hn
    rcases hse : scan e st with ⟨res, st1, msgs1⟩
    rw [hse] at hn
    dsimp only at hn
    rcases hsc : scan_children_go scan rest irl st1 with ⟨others, st2, msgs2⟩
    rw [hsc] at hn
    dsimp only at hn
    cases res with
    | ok m =>
      rcases List.mem_cons.mp hn with h1 | h2
      · subst h1
        exact hscan e st n (by rw [hse])
      · have := ih irl st1 n (by rw [hsc]; exact h2)
        exact this
    | error err =>
      have := ih irl st1 n (by rw [hsc]; exact hn)
      exact this

theorem scan_entry_treeInv
    (scan : FSNode → ScanState → Except String FileNode × ScanState × List PartialScanResult)
    (hscan : ∀ e st node, (scan e st).1 = .ok node → treeInv node = true)
    (fs : FSNode) (path root_path : List String) (st : ScanState) (node : FileNode)
    (h : (scan_entry scan fs path root_path st).1 = .ok node) : treeInv node = true := by
  unfold scan_entry at h
  split at h
  · dsimp only at h
    injection h with h
    subst h
    exact treeInv_leaf _ _ _
  · split at h
    · dsimp only at h
      injection h with h
      subst h
      exact treeInv_leaf _ _ _
    · split at h
      · dsimp only at h
        exact absurd h (by simp)
      · rename_i md hmd
        split at h
        · dsimp only at h
          injection h with h
          subst h
          exact treeInv_leaf _ _ _
        · split at h
          · dsimp only at h
            injection h with h
            subst h
            exact treeInv_leaf _ _ _
          · split at h
            · dsimp only at h
              injection h with h
              subst h
              exact treeInv_leaf _ _ _
            · split at h
              · rename_i entries hentries
                dsimp only at h
                have hkids : ∀ (irl : Bool) (st0 : ScanState),
                    treeInvAll (scan_children_go scan entries irl st0).1 = true := by
                  intro irl st0
                  rw [treeInvAll_iff]
                  intro c hc
                  exact scan_children_go_treeInv scan hscan entries irl st0 c hc
                have hdir : ∀ (nm : String) (p : List String) (cs : List FileNode),
                    treeInvAll cs = true →
                    treeInv (FileNode.mk nm ((cs.map FileNode.size).sum) p (some cs) true) = true := by
                  intro nm p cs hcs
                  simp [treeInv, hcs]
                split at h
                · split at h
                  · dsimp only at h
                    injection h with h
                    subst h
                    exact hdir _ _ _ (hkids _ _)
                  · dsimp only at h
                    injection h with h
                    subst h
                    exact hdir _ _ _ (hkids _ _)
                · dsimp only at h
                  injection h with h
                  subst h
                  exact hdir _ _ _ (hkids _ _)
              · dsimp only at h
                injection h with h
                subst h
                exact treeInv_emptydir _ _

theorem scan_treeInv : ∀ (fuel : Nat) (cancelAt : Option Nat) (fs : FSNode)
    (path root_path : List String) (st : ScanState) (node : FileNode),
    (scan_directory_recursive cancelAt fuel fs path root_path st).1 = .ok node →
    treeInv node = true := by
  intro fuel
  induction fuel with
  | zero =>
    intro cancelAt fs path root_path st node h
    simp [scan_directory_recursive] at h
  | succ fuel ih =>
    intro cancelAt fs path root_path st node h
    simp only [scan_directory_recursive] at h
    split at h
    · exact absurd h (by simp)
    · dsimp only at h
      exact scan_entry_treeInv _
        (fun e st n hn => ih cancelAt e (path ++ [fsname e]) root_path st n hn)
        _ _ _ _ _ h

/-- C3: every tree the walker returns satisfies the size invariant — each
directory node's size is the sum of its direct children's sizes (children
present), transitively, and every file node has no children. -/
theorem c3_size_invariant (fuel : Nat) (cancelAt : Option Nat) (fs : FSNode)
    (path root_path : List String) (st : ScanState) (node : FileNode)
    (h : (scan_directory_recursive cancelAt fuel fs path root_path st).1 = .ok node) :
    treeInv node = true :=
  scan_treeInv fuel cancelAt fs path root_path st node h

/-- Witness for `c3_size_invariant` at the C4 scenario tree. -/
theorem c3_size_invariant_witness : treeInv c4R = true :=
  c3_size_invariant 10 none c4fs ["r"] ["r"] ScanState.new c4R rfl

theorem scan_children_go_msgs
    (scan : FSNode → ScanState → Except String FileNode × ScanState × List PartialScanResult)
    (hscan : ∀ e st m, m ∈ (scan e st).2.2 → m.is_complete = false) :
    ∀ (es : List FSNode) (irl : Bool) (st : ScanState) (m : PartialScanResult),
      m ∈ (scan_children_go scan es irl st).2.2 → m.is_complete = false := by
  intro es
  induction es with
  | nil => intro irl st m hm; simp [scan_children_go] at hm
  | cons e rest ih =>
    intro irl st m hm
    simp only [scan_children_go] at hm
    rcases List.mem_append.mp hm with hm1 | hm
    · rcases List.mem_append.mp hm1 with hm | hm
      · cases irl with
        | true => simp at hm; subst hm; rfl
        | false => simp at hm
      · exact hscan e st m hm
    · exact ih irl ((scan e st).2.1) m hm

theorem scan_entry_msgs
    (scan : FSNode → ScanState → Except String FileNode × ScanState × List PartialScanResult)
    (hscan : ∀ e st m, m ∈ (scan e st).2.2 → m.is_complete = false)
    (fs : FSNode) (path root_path : List String) (st : ScanState) (m : PartialScanResult)
    (hm : m ∈ (scan_entry scan fs path root_path st).2.2) : m.is_complete = false := by
  unfold scan_entry at hm
  split at hm
  · simp at hm
  · split at hm
    · simp at hm
    · split at hm
      · simp at hm
      · split at hm
        · simp at hm
        · split at hm
          · simp at hm
          · split at hm
            · simp at hm
            · split at hm
              · rename_i entries hentries
                dsimp only at hm
                split at hm
                · split at hm
                  · dsimp only at hm
                    rcases List.mem_append.mp hm with hm | hm
                    · exact scan_children_go_msgs scan hscan _ _ _ m hm
                    · simp at hm; subst hm; rfl
                  · dsimp only at hm
                    exact scan_children_go_msgs scan hscan _ _ _ m hm
                · dsimp only at hm
                  exact scan_children_go_msgs scan hscan _ _ _ m hm
              · simp at hm

theorem scan_msgs : ∀ (fuel : Nat) (cancelAt : Option Nat) (fs : FSNode)
    (path root_path : List String) (st : ScanState) (m : PartialScanResult),
    m ∈ (scan_directory_recursive cancelAt fuel fs path root_path st).2.2 →
    m.is_complete = false := by
  intro fuel
  induction fuel with
  | zero =>
    intro cancelAt fs path root_path st m hm
    simp [scan_directory_recursive] at hm
  | succ fuel ih =>
    intro cancelAt fs path root_path st m hm
    simp only [scan_directory_recursive] at hm
    split at hm
    · simp at hm
    · dsimp only at hm
      rcases List.mem_append.mp hm with hm | hm
      · split at hm
        · simp at hm; subst hm; rfl
        · simp at hm
      · exact scan_entry_msgs _ (fun e st m hm => ih cancelAt e (path ++ [fsname e]) root_path st m hm)
          _ _ _ _ m hm

theorem getLast?_append_singleton {α : Type _} (l : List α) (a : α) :
    (l ++ [a]).getLast? = some a := by
  rw [List.getLast?_append_cons]
  rfl

theorem filter_is_complete_nil (l : List PartialScanResult)
    (h : ∀ m ∈ l, m.is_complete = false) :
    l.filter (fun m => m.is_complete) = [] := by
  induction l with
  | nil => rfl
  | cons x xs ih =>
    have hx := h x (by simp)
    simp only [List.filter_cons, hx]
    simp only [Bool.false_eq_true, if_false]
    exact ih (fun m hm => h m (by simp [hm]))

theorem send_final_batch_eq (st : ScanState) (root_node : FileNode)
    (disk_info : Option DiskInfo) :
    (send_final_batch st root_node disk_info).1 =
      (if (st.compact_batch_buffer ++ root_level_files root_node).isEmpty then []
       else [flush_message st (st.compact_batch_buffer ++ root_level_files root_node)]) ++
        [final_message st root_node disk_info] := by
  unfold send_final_batch ScanState.get_stats ScanState.clear_compact_buffer root_level_files
    flush_message final_message final_root_metadata
  dsimp only
  cases hch : root_node.children with
  | none => rw [List.append_nil]
  | some children =>
    dsimp only
    by_cases hrf : ((children.filter (fun child => !child.is_directory)).map to_compact_node) = []
    · rw [hrf, List.append_nil]
      simp
    · rw [if_neg (by simp [hrf] : ¬((children.filter (fun child => !child.is_directory)).map to_compact_node).isEmpty = true)]

/-- C1 (amended): for every scan whose walker finishes successfully, the
stream contains exactly one terminal message; it is the last message,
sent after the remaining buffered compact nodes (with the root-level
files) have been flushed in one preceding batch message; it carries the
final totals and the disk info resolved at scan start; and its
`root_node` is the depth-limited snapshot root's metadata with an empty
children list — not the full depth-limited snapshot. -/
theorem c1_terminal_message (fs : FSNode) (root_path : List String)
    (disk_info : Option DiskInfo) (cancelAt : Option Nat) (fuel : Nat) (root : FileNode)
    (h : (scan_directory_recursive cancelAt fuel fs root_path root_path ScanState.new).1 =
      .ok root) :
    (∃ pre,
      scan_directory_streaming fs root_path disk_info cancelAt fuel =
        pre ++
          ((if ((walker_state fs root_path cancelAt fuel).compact_batch_buffer ++
                root_level_files (build_limited_depth_node root MAX_DEPTH)).isEmpty then []
            else [flush_message (walker_state fs root_path cancelAt fuel)
                    ((walker_state fs root_path cancelAt fuel).compact_batch_buffer ++
                      root_level_files (build_limited_depth_node root MAX_DEPTH))]) ++
            [final_message (walker_state fs root_path cancelAt fuel)
              (build_limited_depth_node root MAX_DEPTH) disk_info]) ∧
      ∀ m ∈ pre, m.is_complete = false) ∧
    (scan_directory_streaming fs root_path disk_info cancelAt fuel).getLast? =
      some (final_message (walker_state fs root_path cancelAt fuel)
        (build_limited_depth_node root MAX_DEPTH) disk_info) ∧
    ((scan_directory_streaming fs root_path disk_info cancelAt fuel).filter
      (fun m => m.is_complete)).length = 1 := by
  rcases hrun : scan_directory_recursive cancelAt fuel fs root_path root_path ScanState.new
    with ⟨res, st', msgs⟩
  rw [hrun] at h
  dsimp only at h
  subst h
  have hws : walker_state fs root_path cancelAt fuel = st' := by
    unfold walker_state
    rw [hrun]
  have htrace : scan_directory_streaming fs root_path disk_info cancelAt fuel =
      ((if disk_info.isSome then [initial_message disk_info root_path] else []) ++ msgs) ++
        (send_final_batch st' (build_limited_depth_node root MAX_DEPTH) disk_info).1 := by
    unfold scan_directory_streaming
    dsimp only
    rw [hrun]
  have hmsgs : ∀ m ∈ (if disk_info.isSome then [initial_message disk_info root_path]
      else []) ++ msgs, m.is_complete = false := by
    intro m hm
    rcases List.mem_append.mp hm with hm | hm
    · cases disk_info with
      | none => simp at hm
      | some d =>
        simp at hm
        subst hm
        rfl
    · exact scan_msgs fuel cancelAt fs root_path root_path ScanState.new m
        (by rw [hrun]; exact hm)
  refine ⟨⟨(if disk_info.isSome then [initial_message disk_info root_path] else []) ++ msgs,
      ?_, hmsgs⟩, ?_, ?_⟩
  · rw [htrace, send_final_batch_eq, hws]
  · rw [htrace, send_final_batch_eq, hws, ← List.append_assoc]
    exact getLast?_append_singleton _ _
  · rw [htrace, send_final_batch_eq]
    rw [List.filter_append, List.filter_append, List.filter_append]
    have h1 : List.filter (fun m => m.is_complete)
        (if disk_info.isSome then [initial_message disk_info root_path] else []) = [] :=
      filter_is_complete_nil _ (fun m hm => hmsgs m (List.mem_append.mpr (Or.inl hm)))
    have h2 : List.filter (fun m => m.is_complete) msgs = [] :=
      filter_is_complete_nil _ (fun m hm => hmsgs m (List.mem_append.mpr (Or.inr hm)))
    rw [h1, h2]
    have hflush : (if (st'.compact_batch_buffer ++
          root_level_files (build_limited_depth_node root MAX_DEPTH)).isEmpty then
            ([] : List PartialScanResult)
          else [flush_message st' (st'.compact_batch_buffer ++
            root_level_files (build_limited_depth_node root MAX_DEPTH))]).filter
          (fun m => m.is_complete) = [] := by
      split
      · rfl
      · simp [List.filter_cons, flush_message]
    rw [hflush]
    simp [final_message]

/-- Witness for `c1_terminal_message` at the one-file scenario `c1fs`. -/
theorem c1_terminal_message_witness :
    (∃ pre,
      scan_directory_streaming c1fs ["r"] none none 10 =
        pre ++
          ((if ((walker_state c1fs ["r"] none 10).compact_batch_buffer ++
                root_level_files (build_limited_depth_node c1R MAX_DEPTH)).isEmpty then []
            else [flush_message (walker_state c1fs ["r"] none 10)
                    ((walker_state c1fs ["r"] none 10).compact_batch_buffer ++
                      root_level_files (build_limited_depth_node c1R MAX_DEPTH))]) ++
            [final_message (walker_state c1fs ["r"] none 10)
              (build_limited_depth_node c1R MAX_DEPTH) none]) ∧
      ∀ m ∈ pre, m.is_complete = false) ∧
    (scan_directory_streaming c1fs ["r"] none none 10).getLast? =
      some (final_message (walker_state c1fs ["r"] none 10)
        (build_limited_depth_node c1R MAX_DEPTH) none) ∧
    ((scan_directory_streaming c1fs ["r"] none none 10).filter
      (fun m => m.is_complete)).length = 1 :=
  c1_terminal_message c1fs ["r"] none none 10 c1R rfl

/-- Witness for `c6_depth_limited_snapshot` at a 102-level chain and the
cutoff position of depth 100. -/
theorem c6_depth_limited_snapshot_witness :
    ∃ m0, getNode (c6_chain 102) (List.replicate 100 0) = some m0 ∧
      ({ name := "d", size := 5, path := [], children := some [],
         is_directory := true } : FileNode).name = m0.name ∧
      ({ name := "d", size := 5, path := [], children := some [],
         is_directory := true } : FileNode).size = m0.size ∧
      ({ name := "d", size := 5, path := [], children := some [],
         is_directory := true } : FileNode).path = m0.path ∧
      ({ name := "d", size := 5, path := [], children := some [],
         is_directory := true } : FileNode).is_directory = m0.is_directory ∧
      (MAX_DEPTH ≤ (List.replicate 100 0).length →
        ({ name := "d", size := 5, path := [], children := some [],
           is_directory := true } : FileNode).children =
          if m0.is_directory then some [] else none) ∧
      (filesChildless (c6_chain 102) = true → m0.is_directory = false →
        ({ name := "d", size := 5, path := [], children := some [],
           is_directory := true } : FileNode).children = none) :=
  c6_depth_limited_snapshot.1 (c6_chain 102) (List.replicate 100 0)
    { name := "d", size := 5, path := [], children := some [], is_directory := true } rfl

theorem core_visited (st : ScanState) : st.core.visited_inodes = st.visited_inodes := rfl

theorem core_stack (st : ScanState) : st.core.recursion_stack = st.recursion_stack := rfl

theorem core_buffer (st : ScanState) : st.core.compact_batch_buffer = st.compact_batch_buffer := rfl

theorem core_counter (st : ScanState) : st.core.counter = st.counter := rfl

theorem core_scanned_size (st : ScanState) : st.core.scanned_size = st.scanned_size := rfl

theorem core_set_current_path (st : ScanState) (p : List String) :
    (ScanState.set_current_path st p).core = st.core := rfl

theorem core_should_send_path_update (st : ScanState) :
    ((ScanState.should_send_path_update st).2).core = st.core := by
  unfold ScanState.should_send_path_update
  dsimp only
  split <;> rfl

theorem core_is_cancelled_state (cancelAt : Option Nat) (st : ScanState) :
    ((ScanState.is_cancelled cancelAt st).2).core = st.core := rfl

theorem core_mark_visited_inode (st : ScanState) (ino : Nat) :
    (ScanState.mark_visited_inode st ino).core =
      (if st.core.visited_inodes.contains ino then st.core
       else { st.core with visited_inodes := ino :: st.core.visited_inodes }) := by
  by_cases h : st.visited_inodes.contains ino = true
  · unfold ScanState.mark_visited_inode
    rw [if_pos h, core_visited, if_pos h]
  · unfold ScanState.mark_visited_inode
    rw [if_neg h, core_visited, if_neg h]
    rfl

theorem core_increment_counter (st : ScanState) :
    (ScanState.increment_counter st).core = { st.core with counter := st.core.counter + 1 } := rfl

theorem core_add_size (st : ScanState) (sz : Nat) :
    (ScanState.add_size st sz).core =
      { st.core with scanned_size := st.core.scanned_size + sz } := rfl

theorem core_push_to_recursion_stack (st : ScanState) (p : List String) :
    (ScanState.push_to_recursion_stack st p).core =
      (if st.core.recursion_stack.contains p then st.core
       else { st.core with recursion_stack := p :: st.core.recursion_stack }) := by
  by_cases h : st.recursion_stack.contains p = true
  · unfold ScanState.push_to_recursion_stack
    rw [if_pos h, core_stack, if_pos h]
  · unfold ScanState.push_to_recursion_stack
    rw [if_neg h, core_stack, if_neg h]
    rfl

theorem core_pop_from_recursion_stack (st : ScanState) (p : List String) :
    (ScanState.pop_from_recursion_stack st p).core =
      { st.core with recursion_stack := st.core.recursion_stack.erase p } := rfl

theorem core_add_compact_fst (st : ScanState) (n : CompactFileNode) :
    (ScanState.add_compact_to_buffer st n).1 =
      decide (BATCH_SIZE ≤ (st.core.compact_batch_buffer ++ [n]).length) := rfl

theorem core_add_compact_snd (st : ScanState) (n : CompactFileNode) :
    ((ScanState.add_compact_to_buffer st n).2).core =
      { st.core with compact_batch_buffer := st.core.compact_batch_buffer ++ [n] } := rfl

theorem core_send_compact_batch (st : ScanState) :
    ((send_compact_batch st).2).core = { st.core with compact_batch_buffer := [] } := rfl

theorem scan_children_go_abstracts
    (scanF : FSNode → ScanState → Except String FileNode × ScanState × List PartialScanResult)
    (scanC : FSNode → CoreState → Except String FileNode × CoreState)
    (habs : ∀ e st, (scanF e st).1 = (scanC e st.core).1 ∧
      ((scanF e st).2.1).core = (scanC e st.core).2) :
    ∀ (es : List FSNode) (irl : Bool) (st : ScanState),
      (scan_children_go scanF es irl st).1 = (scan_core_children_go scanC es st.core).1 ∧
      ((scan_children_go scanF es irl st).2.1).core =
        (scan_core_children_go scanC es st.core).2 := by
  intro es
  induction es with
  | nil => intro irl st; simp [scan_children_go, scan_core_children_go]
  | cons e rest ih =>
    intro irl st
    simp only [scan_children_go, scan_core_children_go]
    obtain ⟨he1, he2⟩ := habs e st
    obtain ⟨hr1, hr2⟩ := ih irl ((scanF e st).2.1)
    rw [← he1, ← he2, ← hr1, hr2, he2]
    exact ⟨rfl, rfl⟩

theorem scan_entry_abstracts
    (scanF : FSNode → ScanState → Except String FileNode × ScanState × List PartialScanResult)
    (scanC : FSNode → CoreState → Except String FileNode × CoreState)
    (habs : ∀ e st, (scanF e st).1 = (scanC e st.core).1 ∧
      ((scanF e st).2.1).core = (scanC e st.core).2)
    (fs : FSNode) (path root_path : List String) (st : ScanState) :
    (scan_entry scanF fs path root_path st).1 =
      (scan_core_entry scanC fs path root_path st.core).1 ∧
    ((scan_entry scanF fs path root_path st).2.1).core =
      (scan_core_entry scanC fs path root_path st.core).2 := by
  unfold scan_entry scan_core_entry
  simp only [ScanState.is_in_recursion_stack, ScanState.is_visited_inode, core_stack, core_visited]
  by_cases h1 : (canonicalize_ok fs && !root_path.isPrefixOf path) = true
  · rw [if_pos h1, if_pos h1]
    exact ⟨rfl, rfl⟩
  · rw [if_neg h1, if_neg h1]
    by_cases h2 : (canonicalize_ok fs && st.recursion_stack.contains path) = true
    · rw [if_pos h2, if_pos h2]
      exact ⟨rfl, rfl⟩
    · rw [if_neg h2, if_neg h2]
      cases hmd : fs_metadata fs with
      | none => exact ⟨rfl, rfl⟩
      | some md =>
        dsimp only
        by_cases h3 : st.visited_inodes.contains md.ino = true
        · rw [if_pos h3, if_pos h3]
          exact ⟨rfl, rfl⟩
        · rw [if_neg h3, if_neg h3]
          have hmark : ScanState.mark_visited_inode st md.ino =
              { st with visited_inodes := md.ino :: st.visited_inodes } := by
            unfold ScanState.mark_visited_inode
            rw [if_neg h3]
          rw [hmark]
          simp only [if_neg h3]
          by_cases h4 : md.is_symlink = true
          · rw [if_pos h4, if_pos h4]
            exact ⟨rfl, by simp [ScanState.core, ScanState.increment_counter]⟩
          · rw [if_neg h4, if_neg h4]
            by_cases h5 : md.is_file = true
            · rw [if_pos h5, if_pos h5]
              exact ⟨rfl, by simp [ScanState.core, ScanState.increment_counter, ScanState.add_size]⟩
            · rw [if_neg h5, if_neg h5]
              cases hrd : fs_read_dir fs with
              | none =>
                exact ⟨rfl, by simp [ScanState.core, ScanState.increment_counter]⟩
              | some entries =>
                dsimp only
                simp only [core_counter, core_scanned_size, core_buffer, core_stack, core_visited]
                obtain ⟨hc1, hc2⟩ := scan_children_go_abstracts scanF scanC habs entries
                  (path == root_path)
                  (ScanState.push_to_recursion_stack (ScanState.increment_counter
                    { st with visited_inodes := md.ino :: st.visited_inodes }) path)
                rw [core_push_to_recursion_stack] at hc1 hc2
                simp only [core_increment_counter, core_counter, core_scanned_size, core_buffer,
                  core_stack, core_visited] at hc1 hc2
                rw [← hc1, ← hc2]
                generalize scan_children_go scanF entries (path == root_path)
                  (ScanState.push_to_recursion_stack (ScanState.increment_counter
                    { st with visited_inodes := md.ino :: st.visited_inodes }) path) = X
                have hcond : (((ScanState.add_compact_to_buffer
                    (ScanState.pop_from_recursion_stack X.2.1 path)
                    (to_compact_node { name := path.getLast?.getD "",
                                       size := (List.map FileNode.size X.1).sum,
                                       path := path,
                                       children := some X.1,
                                       is_directory := true })).1 = true) ↔
                    BATCH_SIZE ≤ (X.2.1.core.compact_batch_buffer ++
                      [to_compact_node { name := path.getLast?.getD "",
                                         size := (List.map FileNode.size X.1).sum,
                                         path := path,
                                         children := some X.1,
                                         is_directory := true }]).length) := by
                  simp [ScanState.pop_from_recursion_stack, ScanState.add_compact_to_buffer,
                    core_buffer]
                simp only [hcond]
                refine ⟨?_, ?_⟩ <;> split <;> (try split) <;> rfl

/-- With no cancellation scheduled, the full walker agrees with the pure
core recursion on the result and the result-relevant state fields. -/
theorem scan_abstracts_core (fuel : Nat) :
    ∀ (fs : FSNode) (path root_path : List String) (st : ScanState),
      (scan_directory_recursive none fuel fs path root_path st).1 =
        (scan_core fuel fs path root_path st.core).1 ∧
      ((scan_directory_recursive none fuel fs path root_path st).2.1).core =
        (scan_core fuel fs path root_path st.core).2 := by
  induction fuel with
  | zero => exact fun fs path root_path st => ⟨rfl, rfl⟩
  | succ fuel ih =>
    intro fs path root_path st
    have h := scan_entry_abstracts
      (fun e s => scan_directory_recursive none fuel e (path ++ [fsname e]) root_path s)
      (fun e c => scan_core fuel e (path ++ [fsname e]) root_path c)
      (fun e s => ih e (path ++ [fsname e]) root_path s)
      fs path root_path
      (ScanState.should_send_path_update (ScanState.set_current_path
        (ScanState.is_cancelled none st).2 path)).2
    rw [core_should_send_path_update, core_set_current_path,
      core_is_cancelled_state] at h
    exact ⟨h.1, h.2⟩

/-- `scan_core` on an unreadable entry: `fs::metadata` fails, so the
entry yields an error and leaves the state untouched (at any fuel). -/
theorem scan_core_unreadable (fuel : Nat) (u : String)
    (path root_path : List String) (c : CoreState) :
    ∃ msg, scan_core fuel (FSNode.unreadable u) path root_path c = (.error msg, c) := by
  cases fuel with
  | zero => exact ⟨"fuel exhausted", rfl⟩
  | succ fuel => exact ⟨"metadata error", rfl⟩

/-- Dropping a child whose scan errors without touching the state does
not change a `scan_core_children_go` run. -/
theorem scan_core_children_go_middle
    (scan : FSNode → CoreState → Except String FileNode × CoreState)
    (u : String) (hu : ∀ c, ∃ msg, scan (FSNode.unreadable u) c = (.error msg, c))
    (es1 es2 : List FSNode) (c : CoreState) :
    scan_core_children_go scan (es1 ++ FSNode.unreadable u :: es2) c =
      scan_core_children_go scan (es1 ++ es2) c := by
  induction es1 generalizing c with
  | nil =>
    obtain ⟨msg, heq⟩ := hu c
    simp only [List.nil_append, scan_core_children_go, heq]
  | cons e es1 ih =>
    simp only [List.cons_append, scan_core_children_go, List.append_eq]
    rw [ih]

/-- Removing an unreadable entry from a directory's entry list leaves
the entire `scan_core` run (result and state) unchanged. -/
theorem scan_core_remove_unreadable (fuel : Nat) (nm u : String) (ino : Nat)
    (es1 es2 : List FSNode) (path root_path : List String) (c : CoreState) :
    scan_core (fuel + 1) (FSNode.dir nm ino (es1 ++ FSNode.unreadable u :: es2))
        path root_path c =
      scan_core (fuel + 1) (FSNode.dir nm ino (es1 ++ es2)) path root_path c := by
  have hkids : ∀ C, scan_core_children_go
      (fun e c => scan_core fuel e (path ++ [fsname e]) root_path c)
      (es1 ++ FSNode.unreadable u :: es2) C =
      scan_core_children_go
        (fun e c => scan_core fuel e (path ++ [fsname e]) root_path c)
        (es1 ++ es2) C := by
    intro C
    exact scan_core_children_go_middle _ u
      (fun c => scan_core_unreadable fuel u (path ++ [fsname (FSNode.unreadable u)]) root_path c)
      es1 es2 C
  simp only [scan_core, scan_core_entry, fs_metadata, fs_read_dir, canonicalize_ok,
    fs_size_on_disk, hkids]

/-- C7: an entry that cannot be read during descent (its `fs::metadata`
call fails) is silently excluded: the walker run on a directory whose
entry list contains the unreadable entry returns exactly the same result
as the run without it — same parent children sequence and size sum, no
error surfaced to the caller — and the same visit counter, scanned size
and compact-node buffer, so the overall scan proceeds as if the entry
were absent. -/
theorem c7_unreadable_entry_excluded (fuel : Nat) (nm u : String) (ino : Nat)
    (es1 es2 : List FSNode) (path root_path : List String) (st : ScanState) :
    (scan_directory_recursive none (fuel + 1)
        (FSNode.dir nm ino (es1 ++ FSNode.unreadable u :: es2)) path root_path st).1 =
      (scan_directory_recursive none (fuel + 1)
        (FSNode.dir nm ino (es1 ++ es2)) path root_path st).1 ∧
    ((scan_directory_recursive none (fuel + 1)
        (FSNode.dir nm ino (es1 ++ FSNode.unreadable u :: es2)) path root_path st).2.1).counter =
      ((scan_directory_recursive none (fuel + 1)
        (FSNode.dir nm ino (es1 ++ es2)) path root_path st).2.1).counter ∧
    ((scan_directory_recursive none (fuel + 1)
        (FSNode.dir nm ino (es1 ++ FSNode.unreadable u :: es2)) path root_path st).2.1).scanned_size =
      ((scan_directory_recursive none (fuel + 1)
        (FSNode.dir nm ino (es1 ++ es2)) path root_path st).2.1).scanned_size ∧
    ((scan_directory_recursive none (fuel + 1)
        (FSNode.dir nm ino (es1 ++ FSNode.unreadable u :: es2)) path root_path st).2.1).compact_batch_buffer =
      ((scan_directory_recursive none (fuel + 1)
        (FSNode.dir nm ino (es1 ++ es2)) path root_path st).2.1).compact_batch_buffer := by
  have h1 := scan_abstracts_core (fuel + 1)
    (FSNode.dir nm ino (es1 ++ FSNode.unreadable u :: es2)) path root_path st
  have h2 := scan_abstracts_core (fuel + 1)
    (FSNode.dir nm ino (es1 ++ es2)) path root_path st
  have hc := scan_core_remove_unreadable fuel nm u ino es1 es2 path root_path st.core
  have hcore : ((scan_directory_recursive none (fuel + 1)
      (FSNode.dir nm ino (es1 ++ FSNode.unreadable u :: es2)) path root_path st).2.1).core =
      ((scan_directory_recursive none (fuel + 1)
        (FSNode.dir nm ino (es1 ++ es2)) path root_path st).2.1).core := by
    rw [h1.2, h2.2, hc]
  refine ⟨?_, ?_, ?_, ?_⟩
  · rw [h1.1, h2.1, hc]
  · rw [← core_counter, ← core_counter, hcore]
  · rw [← core_scanned_size, ← core_scanned_size, hcore]
  · rw [← core_buffer, ← core_buffer, hcore]
